import Mathlib

/-
  Shallow embedding of the rust-ray-tracer repository (src/linalg.rs,
  src/shapes.rs, src/trace.rs, src/main.rs, src/config.rs) over the real
  numbers.  f64 arithmetic is idealized as exact real arithmetic; `panic!`
  is modelled as `none` / a dedicated `panicked` constructor; the thread-rng
  random sources are modelled as an explicit stream `rng : Nat → ℝ` with a
  cursor threaded through the computation.
-/

namespace RayTracer

/-! ## linalg.rs : Vector3 -/

/-- `Vector3` from linalg.rs: cartesian components plus the redundantly
cached spherical components, exactly the six public fields of the struct. -/
structure Vector3 where
  x : ℝ
  y : ℝ
  z : ℝ
  rho : ℝ
  theta : ℝ
  phi : ℝ

/-- Real counterpart of `f64::atan2(y, x)` (used by `Vector3::new_xyz`):
the argument of the complex number `x + y*I`, which agrees with the IEEE
`atan2` on every input without signed zeros, including `atan2 0 0 = 0`. -/
noncomputable def atan2 (y x : ℝ) : ℝ := Complex.arg ⟨x, y⟩

/-- `Vector3::new_xyz` from linalg.rs: stores the cartesian coordinates and
derives the spherical cache. -/
noncomputable def Vector3.new_xyz (x y z : ℝ) : Vector3 :=
  let rho := Real.sqrt (x ^ 2 + y ^ 2 + z ^ 2)
  let theta := atan2 y x
  let phi := if rho = 0 then 0 else Real.arccos (z / rho)
  ⟨x, y, z, rho, theta, phi⟩

/-- `Vector3::new` from linalg.rs: delegates to `new_xyz`. -/
noncomputable def Vector3.new (x y z : ℝ) : Vector3 := Vector3.new_xyz x y z

/-- `Vector3::new_sph` from linalg.rs: stores the spherical coordinates and
derives the cartesian cache. -/
noncomputable def Vector3.new_sph (rho theta phi : ℝ) : Vector3 :=
  ⟨rho * Real.cos theta * Real.sin phi,
   rho * Real.sin theta * Real.sin phi,
   rho * Real.cos phi,
   rho, theta, phi⟩

@[simp] theorem Vector3.new_xyz_x (x y z : ℝ) : (Vector3.new_xyz x y z).x = x := rfl
@[simp] theorem Vector3.new_xyz_y (x y z : ℝ) : (Vector3.new_xyz x y z).y = y := rfl
@[simp] theorem Vector3.new_xyz_z (x y z : ℝ) : (Vector3.new_xyz x y z).z = z := rfl
theorem Vector3.new_xyz_rho (x y z : ℝ) :
    (Vector3.new_xyz x y z).rho = Real.sqrt (x ^ 2 + y ^ 2 + z ^ 2) := rfl

@[simp] theorem Vector3.new_x (x y z : ℝ) : (Vector3.new x y z).x = x := rfl
@[simp] theorem Vector3.new_y (x y z : ℝ) : (Vector3.new x y z).y = y := rfl
@[simp] theorem Vector3.new_z (x y z : ℝ) : (Vector3.new x y z).z = z := rfl
theorem Vector3.new_rho (x y z : ℝ) :
    (Vector3.new x y z).rho = Real.sqrt (x ^ 2 + y ^ 2 + z ^ 2) := rfl

@[simp] theorem Vector3.new_sph_x (r t p : ℝ) :
    (Vector3.new_sph r t p).x = r * Real.cos t * Real.sin p := rfl
@[simp] theorem Vector3.new_sph_y (r t p : ℝ) :
    (Vector3.new_sph r t p).y = r * Real.sin t * Real.sin p := rfl
@[simp] theorem Vector3.new_sph_z (r t p : ℝ) :
    (Vector3.new_sph r t p).z = r * Real.cos p := rfl
@[simp] theorem Vector3.new_sph_rho (r t p : ℝ) : (Vector3.new_sph r t p).rho = r := rfl
@[simp] theorem Vector3.new_sph_theta (r t p : ℝ) : (Vector3.new_sph r t p).theta = t := rfl
@[simp] theorem Vector3.new_sph_phi (r t p : ℝ) : (Vector3.new_sph r t p).phi = p := rfl

/-- `Vector3::dot` from linalg.rs. -/
def Vector3.dot (v w : Vector3) : ℝ := v.x * w.x + v.y * w.y + v.z * w.z

/-- `Vector3::cross` from linalg.rs. -/
noncomputable def Vector3.cross (v w : Vector3) : Vector3 :=
  Vector3.new (v.y * w.z - v.z * w.y) (v.z * w.x - v.x * w.z) (v.x * w.y - v.y * w.x)

/-- `Vector3::scale` from linalg.rs. -/
noncomputable def Vector3.scale (v : Vector3) (s : ℝ) : Vector3 :=
  Vector3.new (v.x * s) (v.y * s) (v.z * s)

/-- `Vector3::size` from linalg.rs: returns the cached `rho`. -/
def Vector3.size (v : Vector3) : ℝ := v.rho

/-- `Vector3::normalize` from linalg.rs.  The `rho == 0` branch is a
`panic!`, modelled as `none`; both other branches return a value. -/
noncomputable def Vector3.normalize (v : Vector3) : Option Vector3 :=
  if v.rho = 1 then some v
  else if v.rho = 0 then none
  else some (v.scale (1 / v.rho))

/-- `Vector3::shift` from linalg.rs. -/
noncomputable def Vector3.shift (v : Vector3) (dx dy dz : ℝ) : Vector3 :=
  Vector3.new (v.x + dx) (v.y + dy) (v.z + dz)

/-- `Vector3::turn` from linalg.rs: rebuild from the cached spherical
coordinates with the deltas added. -/
noncomputable def Vector3.turn (v : Vector3) (dtheta dphi : ℝ) : Vector3 :=
  Vector3.new_sph v.rho (v.theta + dtheta) (v.phi + dphi)

/-- `Vector3::ons` from linalg.rs: orthonormal pair perpendicular to `self`,
projection plane chosen by comparing `|x|` with `|y|`. -/
noncomputable def Vector3.ons (v : Vector3) : Vector3 × Vector3 :=
  let v2 :=
    if |v.x| > |v.y| then
      let inv_len := 1 / Real.sqrt (v.x ^ 2 + v.z ^ 2)
      Vector3.new (-v.z * inv_len) 0 (v.x * inv_len)
    else
      let inv_len := 1 / Real.sqrt (v.y ^ 2 + v.z ^ 2)
      Vector3.new 0 (v.z * inv_len) (-v.y * inv_len)
  (v2, v.cross v2)

/-- `Vector3::rand_hemi2` from linalg.rs, with the two thread-rng draws
`u1 u2` passed explicitly. -/
noncomputable def Vector3.rand_hemi2 (u1 u2 : ℝ) : Vector3 :=
  let r := Real.sqrt (1 - u1 ^ 2)
  let phi := 2 * Real.pi * u2
  Vector3.new (r * Real.cos phi) (r * Real.sin phi) u1

/-- The `Add` impl for Vector3 from linalg.rs (goes through `new`). -/
noncomputable instance : Add Vector3 :=
  ⟨fun a b => Vector3.new (a.x + b.x) (a.y + b.y) (a.z + b.z)⟩

/-- The `Sub` impl for Vector3 from linalg.rs (goes through `new`). -/
noncomputable instance : Sub Vector3 :=
  ⟨fun a b => Vector3.new (a.x - b.x) (a.y - b.y) (a.z - b.z)⟩

/-- The componentwise `Mul` impl for Vector3 from linalg.rs. -/
noncomputable instance : Mul Vector3 :=
  ⟨fun a b => Vector3.new (a.x * b.x) (a.y * b.y) (a.z * b.z)⟩

theorem Vector3.add_def (a b : Vector3) :
    a + b = Vector3.new (a.x + b.x) (a.y + b.y) (a.z + b.z) := rfl
theorem Vector3.sub_def (a b : Vector3) :
    a - b = Vector3.new (a.x - b.x) (a.y - b.y) (a.z - b.z) := rfl
theorem Vector3.mul_def (a b : Vector3) :
    a * b = Vector3.new (a.x * b.x) (a.y * b.y) (a.z * b.z) := rfl

@[simp] theorem Vector3.add_x (a b : Vector3) : (a + b).x = a.x + b.x := rfl
@[simp] theorem Vector3.add_y (a b : Vector3) : (a + b).y = a.y + b.y := rfl
@[simp] theorem Vector3.add_z (a b : Vector3) : (a + b).z = a.z + b.z := rfl
@[simp] theorem Vector3.sub_x (a b : Vector3) : (a - b).x = a.x - b.x := rfl
@[simp] theorem Vector3.sub_y (a b : Vector3) : (a - b).y = a.y - b.y := rfl
@[simp] theorem Vector3.sub_z (a b : Vector3) : (a - b).z = a.z - b.z := rfl
@[simp] theorem Vector3.mul_x (a b : Vector3) : (a * b).x = a.x * b.x := rfl
@[simp] theorem Vector3.mul_y (a b : Vector3) : (a * b).y = a.y * b.y := rfl
@[simp] theorem Vector3.mul_z (a b : Vector3) : (a * b).z = a.z * b.z := rfl
@[simp] theorem Vector3.scale_x (a : Vector3) (s : ℝ) : (a.scale s).x = a.x * s := rfl
@[simp] theorem Vector3.scale_y (a : Vector3) (s : ℝ) : (a.scale s).y = a.y * s := rfl
@[simp] theorem Vector3.scale_z (a : Vector3) (s : ℝ) : (a.scale s).z = a.z * s := rfl

/-! ## trace.rs : Color (a reuse of Vector3) -/

/-- `Color` from trace.rs is a type alias of `Vector3`. -/
abbrev Color := Vector3

namespace Color

/-- `Color::BLACK` from trace.rs: a raw struct literal, spherical cache zeroed. -/
def BLACK : Color := ⟨0, 0, 0, 0, 0, 0⟩
/-- `Color::WHITE` from trace.rs: a raw struct literal, spherical cache zeroed. -/
def WHITE : Color := ⟨255, 255, 255, 0, 0, 0⟩
/-- `Color::RED` from trace.rs: a raw struct literal, spherical cache zeroed. -/
def RED : Color := ⟨255, 0, 0, 0, 0, 0⟩
/-- `Color::GREEN` from trace.rs: a raw struct literal, spherical cache zeroed. -/
def GREEN : Color := ⟨0, 255, 0, 0, 0, 0⟩
/-- `Color::BLUE` from trace.rs: a raw struct literal, spherical cache zeroed. -/
def BLUE : Color := ⟨0, 0, 255, 0, 0, 0⟩
/-- `Color::YELLOW` from trace.rs: a raw struct literal, spherical cache zeroed. -/
def YELLOW : Color := ⟨255, 255, 0, 0, 0, 0⟩

end Color

/-! ## shapes.rs : Ray, Plane, Sphere, Triangle -/

/-- `EPS` from shapes.rs. -/
def EPS : ℝ := 0.0001

/-- `Ray` from shapes.rs. -/
structure Ray where
  pos : Vector3
  dir : Vector3

/-- `Ray::new` from shapes.rs: normalizes the direction (`none` = the
normalize panic on a zero vector). -/
noncomputable def Ray.new (pos dir : Vector3) : Option Ray :=
  (dir.normalize).map fun d => ⟨pos, d⟩

/-- `Ray::turn` from shapes.rs. -/
noncomputable def Ray.turn (r : Ray) (dtheta dphi : ℝ) : Ray :=
  ⟨r.pos, r.dir.turn dtheta dphi⟩

/-- `Ray::get_point` from shapes.rs. -/
noncomputable def Ray.get_point (r : Ray) (t : ℝ) : Vector3 :=
  r.pos + r.dir.scale t

/-- `Plane` from shapes.rs. -/
structure Plane where
  point : Vector3
  norm : Vector3

/-- `Plane::new` from shapes.rs: normalizes the stored normal; `none` is
the normalize panic on a zero normal. -/
noncomputable def Plane.new (point norm : Vector3) : Option Plane :=
  (norm.normalize).map fun n => ⟨point, n⟩

/-- `Plane`'s `Shape::intersect` impl from shapes.rs. -/
noncomputable def Plane.intersect (p : Plane) (ray : Ray) : Option ℝ :=
  let t := p.norm.dot (p.point - ray.pos) / p.norm.dot ray.dir
  if t > EPS then some t else none

/-- `Plane`'s `Shape::normal` impl from shapes.rs. -/
def Plane.normal (p : Plane) (_pos : Vector3) : Vector3 := p.norm

/-- `Sphere` from shapes.rs. -/
structure Sphere where
  center : Vector3
  radius : ℝ

/-- `Sphere`'s `Shape::intersect` impl from shapes.rs: solve the quadratic,
prefer root `t2`, then `t1`, each tested against `EPS` before halving. -/
noncomputable def Sphere.intersect (s : Sphere) (ray : Ray) : Option ℝ :=
  let b := 2 * ray.dir.dot (ray.pos - s.center)
  let c := (ray.pos - s.center).size ^ 2 - s.radius ^ 2
  let disc := b ^ 2 - 4 * c
  if disc < 0 then none
  else
    let sqrtdisc := Real.sqrt disc
    let t1 := -b + sqrtdisc
    let t2 := -b - sqrtdisc
    if t2 > EPS then some (t2 / 2)
    else if t1 > EPS then some (t1 / 2)
    else none

/-- `Sphere`'s `Shape::normal` impl from shapes.rs. -/
noncomputable def Sphere.normal (s : Sphere) (pos : Vector3) : Vector3 :=
  (pos - s.center).scale (1 / s.radius)

/-- Heron's formula of `Triangle::area` from shapes.rs, stated on the three
vertices (the stored plane of a triangle plays no part in `area`). -/
noncomputable def heronArea (v1 v2 v3 : Vector3) : ℝ :=
  let l1 := (v2 - v1).size
  let l2 := (v3 - v1).size
  let l3 := (v3 - v2).size
  let p := (l1 + l2 + l3) / 2
  Real.sqrt (p * (p - l1) * (p - l2) * (p - l3))

/-- `Triangle` from shapes.rs: the vertex array and the supporting plane. -/
structure Triangle where
  v1 : Vector3
  v2 : Vector3
  v3 : Vector3
  plane : Plane

/-- `Triangle::new` from shapes.rs: derive the supporting plane from the
cross product of two edges via `Plane::new`, whose `normalize` panics
(`none`) when the vertices are collinear and the cross product is zero. -/
noncomputable def Triangle.new (v1 v2 v3 : Vector3) : Option Triangle :=
  (Plane.new v1 ((v2 - v1).cross (v3 - v1))).map fun pl => ⟨v1, v2, v3, pl⟩

/-- `Triangle::area` from shapes.rs. -/
noncomputable def Triangle.area (t : Triangle) : ℝ := heronArea t.v1 t.v2 t.v3

/-- `Triangle`'s `Shape::intersect` impl from shapes.rs: delegate to the
supporting plane, then keep the hit only if the three sub-triangle areas sum
to the triangle's own area within `EPS`.  The filter closure constructs the
three sub-triangles through `Triangle::new`, which PANICS (propagated as
`none`, no value returned) when the hit point is collinear with the
corresponding edge — e.g. when the hit point equals a vertex — because the
zero cross product reaches `normalize`. -/
noncomputable def Triangle.intersect (tr : Triangle) (ray : Ray) : Option ℝ :=
  (tr.plane.intersect ray).bind fun t =>
    let point := ray.get_point t
    (Triangle.new tr.v1 tr.v2 point).bind fun tri1 =>
      (Triangle.new tr.v1 tr.v3 point).bind fun tri2 =>
        (Triangle.new tr.v2 tr.v3 point).bind fun tri3 =>
          if |tri1.area + tri2.area + tri3.area - tr.area| < EPS then some t
          else none

/-- `Triangle`'s `Shape::normal` impl from shapes.rs. -/
def Triangle.normal (t : Triangle) (pos : Vector3) : Vector3 :=
  t.plane.normal pos

/-- The `dyn Shape` trait objects of the scene, closed over the variants the
repository defines (spec section 9 sanctions the tagged-variant reading). -/
inductive Shape where
  | sphere (s : Sphere)
  | plane (p : Plane)
  | triangle (t : Triangle)

/-- Dispatch of `Shape::intersect` over the variants. -/
noncomputable def Shape.intersect : Shape → Ray → Option ℝ
  | .sphere s, ray => s.intersect ray
  | .plane p, ray => p.intersect ray
  | .triangle t, ray => t.intersect ray

/-- Dispatch of `Shape::normal` over the variants. -/
noncomputable def Shape.normal : Shape → Vector3 → Vector3
  | .sphere s, pos => s.normal pos
  | .plane p, pos => p.normal pos
  | .triangle t, pos => t.normal pos

/-! ## trace.rs : Material, Object -/

/-- `Material` from trace.rs. -/
inductive Material where
  | Mirror
  | Translucent (clearness : ℝ)

/-- `Object` from trace.rs. -/
structure Object where
  shape : Shape
  color : Color
  lum : Color
  material : Material

/-! ## trace.rs : get_color, the recursive integrator -/

/-- The closure of the `reduce` call in `get_color` (trace.rs line 51):
keep the pair with strictly smaller `t`, otherwise the second pair. -/
noncomputable def min2 (p q : Object × ℝ) : Object × ℝ :=
  if p.2 < q.2 then p else q

/-- `Iterator::reduce`: `none` on the empty list, otherwise fold the rest
of the list onto the first element from the left. -/
def reduceOpt {α : Type} (f : α → α → α) : List α → Option α
  | [] => none
  | a :: l => some (List.foldl f a l)

/-- The `filter_map` stage of `get_color` (trace.rs lines 49-50): every
object paired with its intersection distance, misses dropped, scan order
preserved. -/
noncomputable def hitsList (objects : List Object) (ray : Ray) : List (Object × ℝ) :=
  objects.filterMap fun obj => (obj.shape.intersect ray).map fun t => (obj, t)

/-- The whole hit-selection expression `obj_ts` of `get_color`
(trace.rs lines 49-51). -/
noncomputable def bestHit (objects : List Object) (ray : Ray) : Option (Object × ℝ) :=
  reduceOpt min2 (hitsList objects ray)

/-- Lines 77-82 of trace.rs (glass branch): flip the normal keeping `refr`
when inside the medium (`normal·dir > 0`), otherwise keep the normal and
invert `refr`.  Called with `refr = 1.5`. -/
noncomputable def glassMedium (refr : ℝ) (n d : Vector3) : Vector3 × ℝ :=
  if n.dot d > 0 then (n.scale (-1), refr) else (n, 1 / refr)

/-- The body of `get_color` (trace.rs lines 48-119) for one non-terminal
depth, abstracted over the recursive call `recurse` (which the source
invokes with `depth - 1`).  The rng cursor `k` is threaded through; `none`
is a propagated panic (from `normalize` inside `Ray::new` or the glass
direction normalization). -/
noncomputable def get_colorBody (objects : List Object) (rng : ℕ → ℝ)
    (recurse : Ray → ℕ → Option (Color × ℕ)) (ray : Ray) (k : ℕ) :
    Option (Color × ℕ) :=
  match bestHit objects ray with
  | none => some (Color.BLACK, k)
  | some (best_obj, best_t) =>
    let new_pos := ray.pos + ray.dir.scale best_t
    let n := best_obj.shape.normal new_pos
    let cost := ray.dir.dot n
    let reflected : Option (Color × ℕ) :=
      match best_obj.material with
      | .Mirror =>
        let new_dir := ray.dir - n.scale (2 * cost)
        let new_ray : Ray := ⟨new_pos, new_dir⟩
        (recurse new_ray k).map fun ck =>
          ((ck.1 * best_obj.color).scale (1 / 255), ck.2)
      | .Translucent clearness =>
        if rng k < clearness then -- Glass
          let refr : ℝ := 1.5
          let r0 := ((1 - refr) / (1 + refr)) ^ 2
          let nrefr := glassMedium refr n ray.dir
          let n := nrefr.1
          let refr := nrefr.2
          let cost1 := n.dot ray.dir * (-1)
          let cost2 := 1 - refr ^ 2 * (1 - cost1 ^ 2)
          let r_prob := r0 + (1 - r0) * (1 - cost1) ^ 5
          let finish : Option Vector3 → ℕ → Option (Color × ℕ) := fun nd k2 =>
            nd.bind fun ndv =>
              (Ray.new new_pos ndv).bind fun new_ray =>
                (recurse new_ray k2).map fun ck =>
                  ((ck.1.scale 1.15).scale (1 / 0.9), ck.2)
          let refl_dir := (ray.dir + n.scale (cost1 * 2)).normalize
          -- `cost2 > 0.0 && gen() > r_prob` short-circuits: the second
          -- rng draw happens only when `cost2 > 0`.
          if cost2 > 0 then
            if rng (k + 1) > r_prob then
              finish ((ray.dir.scale refr +
                n.scale (refr * cost1 - Real.sqrt cost2)).normalize) (k + 2)
            else finish refl_dir (k + 2)
          else finish refl_dir (k + 1)
        else -- Opaque
          let n2 := if cost < 0 then n else n.scale (-1)
          let rot := n2.ons
          let sampled_dir := Vector3.rand_hemi2 (rng (k + 1)) (rng (k + 2))
          let new_dir := Vector3.new
            ((Vector3.new rot.1.x rot.2.x n2.x).dot sampled_dir)
            ((Vector3.new rot.1.y rot.2.y n2.y).dot sampled_dir)
            ((Vector3.new rot.1.z rot.2.z n2.z).dot sampled_dir)
          (Ray.new new_pos new_dir).bind fun new_ray =>
            (recurse new_ray (k + 3)).map fun ck =>
              ((((ck.1 * best_obj.color).scale (new_dir.dot n2)).scale
                (1 / 255)).scale (1 / 0.9), ck.2)
    reflected.map fun ck => (ck.1 + best_obj.lum, ck.2)

/-- `get_color` from trace.rs: `depth == 0` returns black, a non-zero depth
runs the body with the recursion at `depth - 1`. -/
noncomputable def get_color (objects : List Object) (rng : ℕ → ℝ) :
    ℕ → Ray → ℕ → Option (Color × ℕ)
  | 0, _, k => some (Color.BLACK, k)
  | d + 1, ray, k =>
    get_colorBody objects rng (fun r k2 => get_color objects rng d r k2) ray k

/-! ## config.rs / trace.rs : Config and the sampling driver -/

/-- `Config` from config.rs (the fields the renderer consumes). -/
structure Config where
  objects : List Object
  pov : Ray
  width : ℕ
  height : ℕ
  fov : ℝ
  max_depth : ℕ
  num_tries : ℕ
  max_variation : ℝ

/-- The per-pixel sampling loop of `make_image` (trace.rs lines 141-152):
accumulate the three channels of `num_tries` integrator samples, each on a
ray re-perturbed by a random `turn`. -/
noncomputable def sample_loop (objects : List Object) (rng : ℕ → ℝ)
    (max_depth : ℕ) (max_variation : ℝ) (ray : Ray) :
    ℕ → ℕ → ℝ → ℝ → ℝ → Option (ℝ × ℝ × ℝ × ℕ)
  | 0, k, r, g, b => some (r, g, b, k)
  | n + 1, k, r, g, b =>
    let ray2 := ray.turn ((2 * rng k - 1) * max_variation)
      ((2 * rng (k + 1) - 1) * max_variation)
    (get_color objects rng max_depth ray2 (k + 2)).bind fun ck =>
      sample_loop objects rng max_depth max_variation ray n ck.2
        (r + ck.1.x) (g + ck.1.y) (b + ck.1.z)

/-- The list of the per-sample integrator colors that the loop of
`make_image` consumes, in order, with the same rng-cursor threading. -/
noncomputable def pixel_samples (objects : List Object) (rng : ℕ → ℝ)
    (max_depth : ℕ) (max_variation : ℝ) (ray : Ray) :
    ℕ → ℕ → Option (List Color × ℕ)
  | 0, k => some ([], k)
  | n + 1, k =>
    let ray2 := ray.turn ((2 * rng k - 1) * max_variation)
      ((2 * rng (k + 1) - 1) * max_variation)
    (get_color objects rng max_depth ray2 (k + 2)).bind fun ck =>
      (pixel_samples objects rng max_depth max_variation ray n ck.2).map
        fun csk => (ck.1 :: csk.1, csk.2)

/-- The camera-angle mapping of `make_image` (trace.rs lines 128-139): the
per-pixel `dtheta`/`dphi` offsets applied to the camera ray by `turn`. -/
noncomputable def pixelRay (cfg : Config) (x y : ℕ) : Ray :=
  let xf : ℝ := x
  let yf : ℝ := (cfg.height - y - 1 : ℕ)
  let widthf : ℝ := cfg.width
  let heightf : ℝ := cfg.height
  let fovx := cfg.fov
  let fovy := fovx * (heightf / widthf)
  let dtheta := -((2 * xf - widthf) / widthf) * fovx
  let dphi := -((2 * yf - heightf) / heightf) * fovy
  cfg.pov.turn dtheta dphi

/-- One pixel of `make_image` (trace.rs lines 124-154): the camera-angle
mapping, then the sampling loop, then `Vector3::new(r, g, b)` of the
accumulated channels. -/
noncomputable def make_pixel (cfg : Config) (x y : ℕ) (rng : ℕ → ℝ) :
    Option Vector3 :=
  (sample_loop cfg.objects rng cfg.max_depth cfg.max_variation
    (pixelRay cfg x y) cfg.num_tries 0 0 0 0).map fun rgbk =>
      Vector3.new rgbk.1 rgbk.2.1 rgbk.2.2.1

/-- `make_image` from trace.rs: the parallel grid of per-pixel values, each
pixel with its own rng stream (each pixel owns its own `thread_rng`). -/
noncomputable def make_image (cfg : Config) (rngAt : ℕ → ℕ → ℕ → ℝ) :
    ℕ → ℕ → Option Vector3 :=
  fun y x => make_pixel cfg x y (rngAt x y)

/-! ## main.rs : build_once byte conversion and the build_real_time loop -/

/-- An image raster: a Vector3 per `(x, y)` coordinate.  The source stores a
`width × height` grid; values outside the grid are never consulted. -/
def Image : Type := ℕ → ℕ → Vector3

/-- `empty_result` from main.rs: the all-zero accumulator. -/
noncomputable def zeroImage : Image := fun _ _ => Vector3.new 0 0 0

/-- The accumulator `result` of `build_real_time` (main.rs lines 101-133) at
the END of iteration `it` (after `result[y][x] += new[y][x]` and after the
end-of-iteration scene-change check): a change at the end of iteration `it`
(`chg it = true`) replaces it by `empty_result`, otherwise the pass image
`pass it` has been added.  `pass` abstracts the (random) `make_image` output
of each iteration; iterations are numbered from 1 as in `for it in 1..`. -/
noncomputable def rtAccEnd (chg : ℕ → Bool) (pass : ℕ → Image) : ℕ → Image
  | 0 => zeroImage
  | it + 1 =>
    if chg (it + 1) then zeroImage
    else fun x y => rtAccEnd chg pass it x y + pass (it + 1) x y

/-- The image displayed/saved during iteration `it` of `build_real_time`
(main.rs lines 116-123): the accumulator after this iteration's add,
scaled by `1.0 / (it as f64)` — `it` is the loop counter, never reset. -/
noncomputable def rtDisplayed (chg : ℕ → Bool) (pass : ℕ → Image) (it : ℕ) :
    Image :=
  fun x y => (rtAccEnd chg pass (it - 1) x y + pass it x y).scale (1 / (it : ℝ))

/-- The latest iteration `j ≤ it` whose end saw a scene change (0 when none
has happened yet): the iteration at whose end the accumulator was last
reset. -/
def lastReset (chg : ℕ → Bool) : ℕ → ℕ
  | 0 => 0
  | it + 1 => if chg (it + 1) then it + 1 else lastReset chg it

/-- Modelled from the spec: the displayed image the spec describes for the
progressive mode — "the accumulator divided by the number of passes made
since that reset", i.e. both the accumulator and the iteration counter
restart at a scene change.  (x-channel; the other channels are identical.) -/
noncomputable def specDisplayedSinceReset (chg : ℕ → Bool) (pass : ℕ → Image)
    (it x y : ℕ) : ℝ :=
  (Finset.sum (Finset.Ioc (lastReset chg (it - 1)) it) fun j => (pass j x y).x) /
    ((it : ℝ) - (lastReset chg (it - 1) : ℝ))

/-! ## config.rs : the scene parser (shape-line handling) -/

/-- `ConfigError` from config.rs (the variants reachable from
`parse_shape`; the IO/image payload variants are irrelevant here). -/
inductive ConfigError where
  | InvalidShape (s : String)
  | InvalidObject (s : String)
  | InvalidLine (s : String)
  | NotEnoughLines

/-- Outcome of a parsing function that may either return, fail with a
recoverable `ConfigError`, or `panic!` (which aborts the process). -/
inductive PRes (α : Type) where
  | ok (a : α)
  | err (e : ConfigError)
  | panicked (msg : String)

/-- `Sphere`'s `FromString::from_string` from config.rs (lines 44-55):
wrong token count panics; each token is parsed with `.unwrap()` (panic on
failure).  `parseNum` abstracts Rust's `str::parse::<f64>`; the panic
message's formatted argument list is elided. -/
noncomputable def Sphere.from_string (parseNum : String → Option ℝ)
    (parts : List String) : PRes Shape :=
  if parts.length ≠ 4 then .panicked "Invalid configuration for sphere"
  else
    match parts.mapM parseNum with
    | none => .panicked "called unwrap on a None value"
    | some ns =>
      .ok (.sphere ⟨Vector3.new (ns.getD 0 0) (ns.getD 1 0) (ns.getD 2 0),
        ns.getD 3 0⟩)

/-- `Plane`'s `FromString::from_string` from config.rs (lines 63-74): wrong
token count panics (the source's message again says "sphere"); the parsed
normal is normalized, whose zero-vector panic also aborts. -/
noncomputable def Plane.from_string (parseNum : String → Option ℝ)
    (parts : List String) : PRes Shape :=
  if parts.length ≠ 6 then .panicked "Invalid configuration for sphere"
  else
    match parts.mapM parseNum with
    | none => .panicked "called unwrap on a None value"
    | some ns =>
      match (Vector3.new (ns.getD 3 0) (ns.getD 4 0) (ns.getD 5 0)).normalize with
      | none => .panicked "Tried to normalize zero vector."
      | some nrm =>
        .ok (.plane ⟨Vector3.new (ns.getD 0 0) (ns.getD 1 0) (ns.getD 2 0), nrm⟩)

/-- `parse_shape` from config.rs (lines 91-112): empty tokens filtered out,
the first remaining token selects the parser from the
`{"sphere", "plane"}` table, a missing or unknown keyword yields the
recoverable `InvalidShape` error built from the original unfiltered parts. -/
noncomputable def parse_shape (parseNum : String → Option ℝ)
    (parts : List String) : PRes Shape :=
  let fail_str := String.intercalate " " parts
  match parts.filter (fun p => p ≠ "") with
  | [] => .err (.InvalidShape fail_str)
  | shape_name :: rest_parts =>
    if shape_name = "sphere" then Sphere.from_string parseNum rest_parts
    else if shape_name = "plane" then Plane.from_string parseNum rest_parts
    else .err (.InvalidShape fail_str)

/-! ## Claim C8 : normalize panics exactly on the zero vector -/

/-- Claim C8: `normalize` applied to a vector whose magnitude field `rho`
is zero hits the `panic!` branch (modelled `none`) and never returns a
value; for any vector with `rho ≠ 0` it returns a value without failing. -/
theorem normalize_zero_panics (v : Vector3) :
    (v.rho = 0 → v.normalize = none) ∧ (v.rho ≠ 0 → ∃ u, v.normalize = some u) := by
  constructor
  · intro h0
    have h1 : v.rho ≠ 1 := by rw [h0]; norm_num
    simp [Vector3.normalize, h0, h1]
  · intro hne
    by_cases h1 : v.rho = 1
    · exact ⟨v, by simp [Vector3.normalize, h1]⟩
    · exact ⟨v.scale (1 / v.rho), by simp [Vector3.normalize, h1, hne]⟩

/-- Witness for C8: the zero vector built by `Vector3::new` panics, the
unit vector `new_sph 1 0 0` normalizes successfully. -/
theorem normalize_zero_panics_witness :
    (Vector3.new 0 0 0).normalize = none ∧
    ∃ u, (Vector3.new_sph 1 0 0).normalize = some u :=
  ⟨(normalize_zero_panics (Vector3.new 0 0 0)).1
    (by rw [Vector3.new_rho]; norm_num),
   (normalize_zero_panics (Vector3.new_sph 1 0 0)).2
    (by rw [Vector3.new_sph_rho]; norm_num)⟩

/-! ## Claim C2 : which relative refractive index the glass branch uses -/

/-- Claim C2 (amended): in the glass branch, a ray INSIDE the medium
(`normal·d > 0`) gets the flipped normal together with `η = 1.5`, while an
ENTERING ray (`normal·d ≤ 0`) keeps the normal and gets the inverted index
`1/1.5` — the opposite pairing from the one the claim states. -/
theorem glassMedium_entering_uses_inverted (n d : Vector3) :
    (n.dot d > 0 → glassMedium 1.5 n d = (n.scale (-1), 1.5)) ∧
    (¬n.dot d > 0 → glassMedium 1.5 n d = (n, 1 / 1.5)) := by
  constructor
  · intro h; simp [glassMedium, h]
  · intro h; simp [glassMedium, h]

/-- Witness for C2 (amended), at concrete normals and directions: inside
uses `1.5` with the flipped normal, entering uses `1/1.5`. -/
theorem glassMedium_entering_uses_inverted_witness :
    glassMedium 1.5 (Vector3.new 0 0 1) (Vector3.new 0 0 1) =
      ((Vector3.new 0 0 1).scale (-1), 1.5) ∧
    glassMedium 1.5 (Vector3.new 0 0 1) (Vector3.new 0 0 (-1)) =
      (Vector3.new 0 0 1, 1 / 1.5) :=
  ⟨(glassMedium_entering_uses_inverted (Vector3.new 0 0 1) (Vector3.new 0 0 1)).1
    (by norm_num [Vector3.dot]),
   (glassMedium_entering_uses_inverted (Vector3.new 0 0 1) (Vector3.new 0 0 (-1))).2
    (by norm_num [Vector3.dot])⟩

/-- Counterexample to C2 as stated: for the concrete entering configuration
(`normal·d = -1 < 0`) the index the glass branch uses is `1/1.5`,
not `1.5`. -/
theorem glassMedium_claim_counterexample :
    (Vector3.new 0 0 1).dot (Vector3.new 0 0 (-1)) < 0 ∧
    (glassMedium 1.5 (Vector3.new 0 0 1) (Vector3.new 0 0 (-1))).2 ≠ 1.5 := by
  constructor
  · norm_num [Vector3.dot]
  · norm_num [glassMedium, Vector3.dot]

/-! ## Claim C10 : the Mirror branch direction is unit without Ray::new -/

/-- Claim C10: for unit `d` and unit `n` (unit in the cartesian sense), the
mirror direction `d - n.scale (2 * d·n)` built by the Mirror branch has
true magnitude 1; its cached `rho` (recomputed by the `Sub` constructor) is
1, so `normalize` — the operation `Ray::new` would have applied — returns
it unchanged: the direct struct literal preserves the Ray invariant. -/
theorem mirror_reflection_unit (d n : Vector3)
    (hd : d.x ^ 2 + d.y ^ 2 + d.z ^ 2 = 1)
    (hn : n.x ^ 2 + n.y ^ 2 + n.z ^ 2 = 1) :
    (d - n.scale (2 * d.dot n)).rho = 1 ∧
    (d - n.scale (2 * d.dot n)).normalize = some (d - n.scale (2 * d.dot n)) := by
  have hsum : (d.x - n.x * (2 * d.dot n)) ^ 2 + (d.y - n.y * (2 * d.dot n)) ^ 2 +
      (d.z - n.z * (2 * d.dot n)) ^ 2 = 1 := by
    have expand : (d.x - n.x * (2 * d.dot n)) ^ 2 + (d.y - n.y * (2 * d.dot n)) ^ 2 +
        (d.z - n.z * (2 * d.dot n)) ^ 2 =
        (d.x ^ 2 + d.y ^ 2 + d.z ^ 2) - 4 * (d.dot n) * (d.dot n) +
          4 * (d.dot n) ^ 2 * (n.x ^ 2 + n.y ^ 2 + n.z ^ 2) := by
      simp only [Vector3.dot]; ring
    rw [expand, hd, hn]; ring
  have hrho : (d - n.scale (2 * d.dot n)).rho = 1 := by
    rw [Vector3.sub_def]
    rw [Vector3.new_rho]
    simp only [Vector3.scale_x, Vector3.scale_y, Vector3.scale_z]
    rw [hsum]
    exact Real.sqrt_one
  exact ⟨hrho, by simp [Vector3.normalize, hrho]⟩

/-- Witness for C10 at `d = (0,0,1)`, `n = (0,0,-1)`. -/
theorem mirror_reflection_unit_witness :
    (Vector3.new 0 0 1 - (Vector3.new 0 0 (-1)).scale
      (2 * (Vector3.new 0 0 1).dot (Vector3.new 0 0 (-1)))).rho = 1 ∧
    (Vector3.new 0 0 1 - (Vector3.new 0 0 (-1)).scale
      (2 * (Vector3.new 0 0 1).dot (Vector3.new 0 0 (-1)))).normalize =
      some (Vector3.new 0 0 1 - (Vector3.new 0 0 (-1)).scale
        (2 * (Vector3.new 0 0 1).dot (Vector3.new 0 0 (-1)))) :=
  mirror_reflection_unit (Vector3.new 0 0 1) (Vector3.new 0 0 (-1))
    (by norm_num) (by norm_num)

/-! ## Claim C5 : epsilon bounds on the returned hit distances -/

theorem plane_intersect_gt (p : Plane) (r : Ray) (t : ℝ)
    (h : p.intersect r = some t) : EPS < t := by
  simp only [Plane.intersect] at h
  split at h
  next hc => cases h; exact hc
  next hc => cases h

theorem sphere_intersect_gt (s : Sphere) (r : Ray) (t : ℝ)
    (h : s.intersect r = some t) : EPS / 2 < t := by
  simp only [Sphere.intersect] at h
  split at h
  next => cases h
  next =>
    split at h
    next hc => cases h; linarith
    next =>
      split at h
      next hc => cases h; linarith
      next => cases h

theorem triangle_intersect_gt (tr : Triangle) (r : Ray) (t : ℝ)
    (h : tr.intersect r = some t) : EPS < t := by
  unfold Triangle.intersect at h
  cases hp : tr.plane.intersect r with
  | none => rw [hp] at h; simp at h
  | some t0 =>
    rw [hp] at h
    simp only [Option.some_bind] at h
    cases h1 : Triangle.new tr.v1 tr.v2 (r.get_point t0) with
    | none => rw [h1] at h; simp at h
    | some tri1 =>
      rw [h1] at h
      simp only [Option.some_bind] at h
      cases h2 : Triangle.new tr.v1 tr.v3 (r.get_point t0) with
      | none => rw [h2] at h; simp at h
      | some tri2 =>
        rw [h2] at h
        simp only [Option.some_bind] at h
        cases h3 : Triangle.new tr.v2 tr.v3 (r.get_point t0) with
        | none => rw [h3] at h; simp at h
        | some tri3 =>
          rw [h3] at h
          simp only [Option.some_bind] at h
          split at h
          next => exact (Option.some.inj h) ▸ plane_intersect_gt tr.plane r t0 hp
          next => cases h

/-- Claim C5 (amended): the `1e-4` bound holds on the returned distance for
Plane and Triangle, but Sphere tests the bound on the un-halved root
(`t2`/`t1`) and returns the half, so the returned sphere distance is only
guaranteed to exceed `EPS / 2`. -/
theorem intersect_eps_amended (s : Sphere) (p : Plane) (tr : Triangle)
    (r : Ray) (t : ℝ) :
    (s.intersect r = some t → EPS / 2 < t) ∧
    (p.intersect r = some t → EPS < t) ∧
    (tr.intersect r = some t → EPS < t) :=
  ⟨sphere_intersect_gt s r t, plane_intersect_gt p r t, triangle_intersect_gt tr r t⟩

/-- The ray of the spec's own test vectors: origin, direction `(0,0,1)`. -/
noncomputable def exRayZ : Ray := ⟨Vector3.new 0 0 0, Vector3.new 0 0 1⟩
/-- The spec's test sphere: center `(0,0,5)`, radius 1. -/
noncomputable def exSphere : Sphere := ⟨Vector3.new 0 0 5, 1⟩
/-- The spec's test plane at `(0,0,5)` with normal `(0,0,1)`. -/
noncomputable def exPlane : Plane := ⟨Vector3.new 0 0 5, Vector3.new 0 0 1⟩
/-- First vertex of the witness triangle, in the plane `z = 5`. -/
noncomputable def exV1 : Vector3 := Vector3.new (-3) (-4) 5
/-- Second vertex of the witness triangle. -/
noncomputable def exV2 : Vector3 := Vector3.new 3 (-4) 5
/-- Third vertex of the witness triangle. -/
noncomputable def exV3 : Vector3 := Vector3.new 0 (28 / 3) 5
/-- The supporting plane `Triangle::new` would derive for the witness
triangle: point `exV1`, unit normal `(0,0,1)` (the normalized cross
product of its edges). -/
noncomputable def exPlaneTri : Plane := ⟨exV1, Vector3.new 0 0 1⟩
/-- A triangle in the plane `z = 5` containing the hit point `(0,0,5)` of
`exRayZ` STRICTLY in its interior (so no sub-triangle of the containment
test degenerates), with all six relevant distances rational:
`|exV2-exV1| = 6`, `|exV3-exV1| = |exV3-exV2| = 41/3`, and the hit point at
distances 5, 5, 28/3 from the vertices. -/
noncomputable def exTriangle : Triangle := ⟨exV1, exV2, exV3, exPlaneTri⟩

theorem exSphere_eval : exSphere.intersect exRayZ = some 4 := by
  have h4 : Real.sqrt 4 = 2 := by
    rw [show (4 : ℝ) = 2 ^ 2 by norm_num]
    exact Real.sqrt_sq (by norm_num)
  norm_num [Sphere.intersect, exSphere, exRayZ, Vector3.dot, Vector3.size,
    Vector3.sub_def, Vector3.new_rho, Real.sq_sqrt, h4, EPS]

theorem exPlane_eval : exPlane.intersect exRayZ = some 5 := by
  norm_num [Plane.intersect, exPlane, exRayZ, Vector3.dot, Vector3.sub_def, EPS]

theorem size_eval (v w : Vector3) (s : ℝ) (hs : 0 ≤ s)
    (h : (v.x - w.x) ^ 2 + (v.y - w.y) ^ 2 + (v.z - w.z) ^ 2 = s ^ 2) :
    (v - w).size = s := by
  rw [Vector3.size, Vector3.sub_def, Vector3.new_rho, h]
  exact Real.sqrt_sq hs

theorem heronArea_eval (v1 v2 v3 : Vector3) (a b c A : ℝ)
    (h1 : (v2 - v1).size = a) (h2 : (v3 - v1).size = b)
    (h3 : (v3 - v2).size = c) (hA : 0 ≤ A)
    (hprod : (a + b + c) / 2 * ((a + b + c) / 2 - a) * ((a + b + c) / 2 - b) *
      ((a + b + c) / 2 - c) = A ^ 2) :
    heronArea v1 v2 v3 = A := by
  unfold heronArea
  rw [h1, h2, h3]
  dsimp only
  rw [hprod]
  exact Real.sqrt_sq hA

theorem cross_size_ne_zero (v w : Vector3) (s : ℝ) (hs : 0 < s)
    (h : (v.y * w.z - v.z * w.y) ^ 2 + (v.z * w.x - v.x * w.z) ^ 2 +
      (v.x * w.y - v.y * w.x) ^ 2 = s ^ 2) :
    ((v.cross w)).rho ≠ 0 := by
  unfold Vector3.cross
  rw [Vector3.new_rho, h, Real.sqrt_sq hs.le]
  exact hs.ne'

theorem Triangle.new_some (v1 v2 v3 : Vector3)
    (h : ((v2 - v1).cross (v3 - v1)).rho ≠ 0) :
    ∃ tri : Triangle, Triangle.new v1 v2 v3 = some tri ∧
      tri.v1 = v1 ∧ tri.v2 = v2 ∧ tri.v3 = v3 := by
  unfold Triangle.new Plane.new Vector3.normalize
  by_cases h1 : ((v2 - v1).cross (v3 - v1)).rho = 1
  · rw [if_pos h1]
    exact ⟨_, rfl, rfl, rfl, rfl⟩
  · rw [if_neg h1, if_neg h]
    exact ⟨_, rfl, rfl, rfl, rfl⟩

theorem exTriangle_eval : exTriangle.intersect exRayZ = some 5 := by
  have hplane : exPlaneTri.intersect exRayZ = some 5 := by
    norm_num [Plane.intersect, exPlaneTri, exV1, exRayZ, Vector3.dot,
      Vector3.sub_def, EPS]
  have hpoint : exRayZ.get_point 5 = Vector3.new 0 0 5 := by
    simp only [Ray.get_point, exRayZ, Vector3.add_def, Vector3.scale_x,
      Vector3.scale_y, Vector3.scale_z, Vector3.new_x, Vector3.new_y, Vector3.new_z]
    norm_num
  obtain ⟨t1, ht1, ht1a, ht1b, ht1c⟩ :=
    Triangle.new_some exV1 exV2 (Vector3.new 0 0 5)
      (cross_size_ne_zero _ _ 24 (by norm_num) (by norm_num [exV1, exV2]))
  obtain ⟨t2, ht2, ht2a, ht2b, ht2c⟩ :=
    Triangle.new_some exV1 exV3 (Vector3.new 0 0 5)
      (cross_size_ne_zero _ _ 28 (by norm_num) (by norm_num [exV1, exV3]))
  obtain ⟨t3, ht3, ht3a, ht3b, ht3c⟩ :=
    Triangle.new_some exV2 exV3 (Vector3.new 0 0 5)
      (cross_size_ne_zero _ _ 28 (by norm_num) (by norm_num [exV2, exV3]))
  have ha1 : t1.area = 12 := by
    rw [Triangle.area, ht1a, ht1b, ht1c]
    exact heronArea_eval _ _ _ 6 5 5 12
      (size_eval _ _ 6 (by norm_num) (by norm_num [exV1, exV2]))
      (size_eval _ _ 5 (by norm_num) (by norm_num [exV1]))
      (size_eval _ _ 5 (by norm_num) (by norm_num [exV2]))
      (by norm_num) (by norm_num)
  have ha2 : t2.area = 14 := by
    rw [Triangle.area, ht2a, ht2b, ht2c]
    exact heronArea_eval _ _ _ (41 / 3) 5 (28 / 3) 14
      (size_eval _ _ (41 / 3) (by norm_num) (by norm_num [exV1, exV3]))
      (size_eval _ _ 5 (by norm_num) (by norm_num [exV1]))
      (size_eval _ _ (28 / 3) (by norm_num) (by norm_num [exV3]))
      (by norm_num) (by norm_num)
  have ha3 : t3.area = 14 := by
    rw [Triangle.area, ht3a, ht3b, ht3c]
    exact heronArea_eval _ _ _ (41 / 3) 5 (28 / 3) 14
      (size_eval _ _ (41 / 3) (by norm_num) (by norm_num [exV2, exV3]))
      (size_eval _ _ 5 (by norm_num) (by norm_num [exV2]))
      (size_eval _ _ (28 / 3) (by norm_num) (by norm_num [exV3]))
      (by norm_num) (by norm_num)
  have harea : exTriangle.area = 40 := by
    rw [show exTriangle.area = heronArea exV1 exV2 exV3 from rfl]
    exact heronArea_eval _ _ _ 6 (41 / 3) (41 / 3) 40
      (size_eval _ _ 6 (by norm_num) (by norm_num [exV1, exV2]))
      (size_eval _ _ (41 / 3) (by norm_num) (by norm_num [exV1, exV3]))
      (size_eval _ _ (41 / 3) (by norm_num) (by norm_num [exV2, exV3]))
      (by norm_num) (by norm_num)
  have hcond : |t1.area + t2.area + t3.area - exTriangle.area| < EPS := by
    rw [ha1, ha2, ha3, harea]
    norm_num [EPS]
  unfold Triangle.intersect
  rw [show exTriangle.plane = exPlaneTri from rfl, hplane]
  simp only [Option.some_bind, hpoint, show exTriangle.v1 = exV1 from rfl,
    show exTriangle.v2 = exV2 from rfl, show exTriangle.v3 = exV3 from rfl,
    ht1, ht2, ht3]
  rw [if_pos hcond]

/-- Witness for C5 (amended) at the spec's own test vectors. -/
theorem intersect_eps_amended_witness :
    (exSphere.intersect exRayZ = some 4 ∧ EPS / 2 < (4 : ℝ)) ∧
    (exPlane.intersect exRayZ = some 5 ∧ EPS < (5 : ℝ)) ∧
    (exTriangle.intersect exRayZ = some 5 ∧ EPS < (5 : ℝ)) :=
  ⟨⟨exSphere_eval,
    (intersect_eps_amended exSphere exPlane exTriangle exRayZ 4).1 exSphere_eval⟩,
   ⟨exPlane_eval,
    (intersect_eps_amended exSphere exPlane exTriangle exRayZ 5).2.1 exPlane_eval⟩,
   ⟨exTriangle_eval,
    (intersect_eps_amended exSphere exPlane exTriangle exRayZ 5).2.2 exTriangle_eval⟩⟩

/-- Unit sphere at the origin, viewed from just above its north pole. -/
noncomputable def exSphereEps : Sphere := ⟨Vector3.new 0 0 0, 1⟩
/-- Ray starting `7.5e-5` above the unit sphere, looking straight down. -/
noncomputable def exRayEps : Ray :=
  ⟨Vector3.new 0 0 (40003 / 40000), Vector3.new 0 0 (-1)⟩

/-- Counterexample to C5 as stated: this sphere intersection returns
`some (3/40000)` — the un-halved root `1.5e-4` passes the `EPS` test, but
the RETURNED distance `7.5e-5` does not exceed `EPS = 1e-4`. -/
theorem sphere_eps_counterexample :
    exSphereEps.intersect exRayEps = some (3 / 40000) ∧
    ¬EPS < (3 / 40000 : ℝ) := by
  constructor
  · have hsz : (exRayEps.pos - exSphereEps.center).size ^ 2 = (40003 / 40000 : ℝ) ^ 2 := by
      simp only [exRayEps, exSphereEps, Vector3.sub_def, Vector3.size, Vector3.new_rho,
        Vector3.new_x, Vector3.new_y, Vector3.new_z]
      rw [show ((0 : ℝ) - 0) ^ 2 + ((0 : ℝ) - 0) ^ 2 + ((40003 / 40000 : ℝ) - 0) ^ 2 =
        ((40003 / 40000 : ℝ)) ^ 2 by norm_num]
      exact Real.sq_sqrt (by positivity)
    have hdot : exRayEps.dir.dot (exRayEps.pos - exSphereEps.center) =
        -(40003 / 40000 : ℝ) := by
      simp only [exRayEps, exSphereEps, Vector3.sub_def, Vector3.dot,
        Vector3.new_x, Vector3.new_y, Vector3.new_z]
      norm_num
    have h4 : Real.sqrt 4 = 2 := by
      rw [show (4 : ℝ) = 2 ^ 2 by norm_num]
      exact Real.sqrt_sq (by norm_num)
    have hrad : exSphereEps.radius = 1 := rfl
    simp only [Sphere.intersect, hdot, hsz, hrad]
    rw [show (2 * -(40003 / 40000 : ℝ)) ^ 2 -
      4 * ((40003 / 40000 : ℝ) ^ 2 - 1 ^ 2) = 4 by norm_num]
    rw [h4]
    norm_num [EPS]
  · norm_num [EPS]

/-! ## Claim C6 : cartesian/spherical cache consistency -/

/-- The spec's cache invariant: the cartesian fields are obtained from the
spherical fields as `new_sph` does (rho the magnitude, theta the azimuth,
phi the inclination). -/
def sphConsistent (v : Vector3) : Prop :=
  v.x = v.rho * Real.cos v.theta * Real.sin v.phi ∧
  v.y = v.rho * Real.sin v.theta * Real.sin v.phi ∧
  v.z = v.rho * Real.cos v.phi

theorem new_xyz_sphConsistent (x y z : ℝ) :
    sphConsistent (Vector3.new_xyz x y z) := by
  have hS0 : (0 : ℝ) ≤ x ^ 2 + y ^ 2 + z ^ 2 := by positivity
  by_cases h0 : Real.sqrt (x ^ 2 + y ^ 2 + z ^ 2) = 0
  · have hsum : x ^ 2 + y ^ 2 + z ^ 2 = 0 := (Real.sqrt_eq_zero hS0).mp h0
    have hx : x = 0 := by nlinarith [sq_nonneg x, sq_nonneg y, sq_nonneg z]
    have hy : y = 0 := by nlinarith [sq_nonneg x, sq_nonneg y, sq_nonneg z]
    have hz : z = 0 := by nlinarith [sq_nonneg x, sq_nonneg y, sq_nonneg z]
    subst hx; subst hy; subst hz
    refine ⟨?_, ?_, ?_⟩ <;> norm_num [Vector3.new_xyz]
  · have hrpos : 0 < Real.sqrt (x ^ 2 + y ^ 2 + z ^ 2) :=
      lt_of_le_of_ne (Real.sqrt_nonneg _) (Ne.symm h0)
    have hr2 : Real.sqrt (x ^ 2 + y ^ 2 + z ^ 2) ^ 2 = x ^ 2 + y ^ 2 + z ^ 2 :=
      Real.sq_sqrt hS0
    have hzle : z ≤ Real.sqrt (x ^ 2 + y ^ 2 + z ^ 2) := by
      nlinarith [sq_nonneg (z - Real.sqrt (x ^ 2 + y ^ 2 + z ^ 2)), sq_nonneg x, sq_nonneg y]
    have hzge : -Real.sqrt (x ^ 2 + y ^ 2 + z ^ 2) ≤ z := by
      nlinarith [sq_nonneg (z + Real.sqrt (x ^ 2 + y ^ 2 + z ^ 2)), sq_nonneg x, sq_nonneg y]
    have hcos : Real.cos (Real.arccos (z / Real.sqrt (x ^ 2 + y ^ 2 + z ^ 2))) =
        z / Real.sqrt (x ^ 2 + y ^ 2 + z ^ 2) := by
      apply Real.cos_arccos
      · rw [le_div_iff₀ hrpos]; linarith
      · rw [div_le_one hrpos]; exact hzle
    have hSpos : 0 < x ^ 2 + y ^ 2 + z ^ 2 := Real.sqrt_pos.mp hrpos
    have hsin : Real.sin (Real.arccos (z / Real.sqrt (x ^ 2 + y ^ 2 + z ^ 2))) =
        Real.sqrt (x ^ 2 + y ^ 2) / Real.sqrt (x ^ 2 + y ^ 2 + z ^ 2) := by
      rw [Real.sin_arccos]
      rw [show 1 - (z / Real.sqrt (x ^ 2 + y ^ 2 + z ^ 2)) ^ 2 =
          (x ^ 2 + y ^ 2) / (x ^ 2 + y ^ 2 + z ^ 2) by
        rw [div_pow, hr2]
        field_simp]
      rw [Real.sqrt_div (by positivity) _]
    by_cases hxy : x = 0 ∧ y = 0
    · obtain ⟨hx, hy⟩ := hxy
      subst hx; subst hy
      refine ⟨?_, ?_, ?_⟩ <;>
        simp only [Vector3.new_xyz, if_neg h0, hsin, hcos]
      · norm_num
      · norm_num
      · have hz2 : Real.sqrt (z ^ 2) ≠ 0 := by
          intro hc
          apply h0
          rw [show (0 : ℝ) ^ 2 + 0 ^ 2 + z ^ 2 = z ^ 2 by ring, hc]
        field_simp [h0]
    · have hc : (⟨x, y⟩ : ℂ) ≠ 0 := by
        intro hc0
        apply hxy
        have hre := congrArg Complex.re hc0
        have him := congrArg Complex.im hc0
        exact ⟨hre, him⟩
      have habs : Complex.abs ⟨x, y⟩ = Real.sqrt (x ^ 2 + y ^ 2) := by
        rw [Complex.abs_apply, Complex.normSq_mk]
        norm_num [sq]
      have hspos : 0 < Real.sqrt (x ^ 2 + y ^ 2) := by
        apply Real.sqrt_pos.mpr
        rcases (not_and_or.mp hxy) with hx | hy
        · positivity
        · positivity
      have hcosarg : Real.cos (atan2 y x) = x / Real.sqrt (x ^ 2 + y ^ 2) := by
        rw [atan2, Complex.cos_arg hc, habs]
      have hsinarg : Real.sin (atan2 y x) = y / Real.sqrt (x ^ 2 + y ^ 2) := by
        rw [atan2, Complex.sin_arg, habs]
      refine ⟨?_, ?_, ?_⟩ <;>
        simp only [Vector3.new_xyz, if_neg h0, hcos, hsin, hcosarg, hsinarg]
      · field_simp
      · field_simp
      · field_simp

/-- Claim C6 (amended): every Vector3 built through the constructors
(`new_xyz`, hence `new` and all arithmetic results, and `new_sph`) has a
consistent cartesian/spherical cache, with `rho` the cartesian magnitude
for `new_xyz`; the `Color` constants, however, are raw struct literals that
bypass the constructors and zero the spherical cache. -/
theorem constructors_sph_consistent (x y z r t p : ℝ) :
    (Vector3.new_xyz x y z).rho = Real.sqrt (x ^ 2 + y ^ 2 + z ^ 2) ∧
    sphConsistent (Vector3.new_xyz x y z) ∧
    sphConsistent (Vector3.new_sph r t p) :=
  ⟨rfl, new_xyz_sphConsistent x y z, ⟨rfl, rfl, rfl⟩⟩

/-- Counterexample to C6 as stated: `Color::WHITE`, a Color value used by
the renderer, caches `rho = 0` while its cartesian magnitude is
`√195075 ≠ 0`, and it fails the consistency invariant. -/
theorem white_cache_counterexample :
    Color.WHITE.rho ≠
      Real.sqrt (Color.WHITE.x ^ 2 + Color.WHITE.y ^ 2 + Color.WHITE.z ^ 2) ∧
    ¬sphConsistent Color.WHITE := by
  constructor
  · intro h
    have : (0 : ℝ) < Real.sqrt (Color.WHITE.x ^ 2 + Color.WHITE.y ^ 2 + Color.WHITE.z ^ 2) := by
      apply Real.sqrt_pos.mpr
      norm_num [Color.WHITE]
    rw [← h] at this
    norm_num [Color.WHITE] at this
  · intro hcons
    obtain ⟨h1, -, -⟩ := hcons
    norm_num [Color.WHITE] at h1

/-! ## Claim C3 : which hit the integrator's reduce selects -/

theorem foldl_min2_snd_le (a : Object × ℝ) (l : List (Object × ℝ)) :
    (List.foldl min2 a l).2 ≤ a.2 := by
  induction l generalizing a with
  | nil => exact le_refl _
  | cons b l ih =>
    rw [List.foldl_cons]
    refine le_trans (ih (min2 a b)) ?_
    unfold min2
    split
    next => exact le_refl _
    next h => exact le_of_not_lt h

theorem foldl_min2_decomp (a : Object × ℝ) (l : List (Object × ℝ)) :
    ∃ l₁ l₂, a :: l = l₁ ++ (List.foldl min2 a l) :: l₂ ∧
      (∀ q ∈ l₁, (List.foldl min2 a l).2 ≤ q.2) ∧
      (∀ q ∈ l₂, (List.foldl min2 a l).2 < q.2) := by
  induction l generalizing a with
  | nil =>
    refine ⟨[], [], rfl, ?_, ?_⟩
    · intro q hq; cases hq
    · intro q hq; cases hq
  | cons b l ih =>
    rw [List.foldl_cons]
    by_cases hab : a.2 < b.2
    · have hmab : min2 a b = a := if_pos hab
      rw [hmab]
      obtain ⟨l₁, l₂, hdec, hle, hlt⟩ := ih a
      cases l₁ with
      | nil =>
        rw [List.nil_append] at hdec
        injection hdec with ha hl
        refine ⟨[], b :: l, ?_, ?_, ?_⟩
        · rw [← ha, List.nil_append]
        · intro q hq; cases hq
        · intro q hq
          rcases List.mem_cons.mp hq with hqb | hql
          · rw [hqb, ← ha]; exact hab
          · exact hlt q (hl ▸ hql)
      | cons c m =>
        rw [List.cons_append] at hdec
        injection hdec with hac hl
        refine ⟨a :: b :: m, l₂, ?_, ?_, hlt⟩
        · rw [List.cons_append, List.cons_append, ← hl]
        · intro q hq
          have hfa : (List.foldl min2 a l).2 ≤ a.2 := by
            have := hle c (List.mem_cons_self c m)
            rw [← hac] at this
            exact this
          rcases List.mem_cons.mp hq with hqa | hq2
          · rw [hqa]; exact hfa
          · rcases List.mem_cons.mp hq2 with hqb | hqm
            · rw [hqb]; exact le_of_lt (lt_of_le_of_lt hfa hab)
            · exact hle q (List.mem_cons_of_mem c hqm)
    · have hmab : min2 a b = b := if_neg hab
      rw [hmab]
      obtain ⟨l₁, l₂, hdec, hle, hlt⟩ := ih b
      refine ⟨a :: l₁, l₂, ?_, ?_, hlt⟩
      · rw [List.cons_append, ← hdec]
      · intro q hq
        rcases List.mem_cons.mp hq with hqa | hq1
        · rw [hqa]
          exact le_trans (foldl_min2_snd_le b l) (le_of_not_lt hab)
        · exact hle q hq1

/-- Claim C3 (amended): at non-zero depth the integrator's hit selection
returns a hit of (positive) minimal distance, and when several hits tie at
the minimal `t` the LAST one in scan order wins (the strict `<` keeps the
incumbent only when strictly smaller, so a tying later hit replaces it):
the chosen hit is followed only by strictly larger hits, and preceded only
by hits no smaller. -/
theorem bestHit_min_tie_last (objects : List Object) (ray : Ray)
    (p : Object × ℝ) (h : bestHit objects ray = some p) :
    0 < p.2 ∧ ∃ l₁ l₂, hitsList objects ray = l₁ ++ p :: l₂ ∧
      (∀ q ∈ l₁, p.2 ≤ q.2) ∧ (∀ q ∈ l₂, p.2 < q.2) := by
  unfold bestHit at h
  cases hl : hitsList objects ray with
  | nil => rw [hl] at h; exact absurd h (by simp [reduceOpt])
  | cons a l =>
    rw [hl] at h
    simp only [reduceOpt] at h
    have hp : List.foldl min2 a l = p := Option.some.inj h
    obtain ⟨l₁, l₂, hdec, hle, hlt⟩ := foldl_min2_decomp a l
    rw [hp] at hdec hle hlt
    constructor
    · have hmem : p ∈ hitsList objects ray := by
        rw [hl, hdec]
        exact List.mem_append_right l₁ (List.mem_cons_self p l₂)
      unfold hitsList at hmem
      obtain ⟨obj, -, hfm⟩ := List.mem_filterMap.mp hmem
      cases hi : obj.shape.intersect ray with
      | none => rw [hi] at hfm; cases hfm
      | some t =>
        rw [hi] at hfm
        have hpt : p.2 = t := by
          have := Option.some.inj hfm
          rw [← this]
        have heps : (0 : ℝ) < EPS / 2 := by norm_num [EPS]
        rw [hpt]
        cases hs : obj.shape with
        | sphere s =>
          rw [hs] at hi
          simp only [Shape.intersect] at hi
          exact lt_trans heps (sphere_intersect_gt s ray t hi)
        | plane pl =>
          rw [hs] at hi
          simp only [Shape.intersect] at hi
          have := plane_intersect_gt pl ray t hi
          have h2 : (0 : ℝ) < EPS := by norm_num [EPS]
          exact lt_trans h2 this
        | triangle tr =>
          rw [hs] at hi
          simp only [Shape.intersect] at hi
          have := triangle_intersect_gt tr ray t hi
          have h2 : (0 : ℝ) < EPS := by norm_num [EPS]
          exact lt_trans h2 this
    · exact ⟨l₁, l₂, hdec, hle, hlt⟩

/-- First scene object of the tie scene: the test plane, no luminance. -/
noncomputable def exObjA : Object :=
  ⟨.plane exPlane, Color.BLACK, Vector3.new 0 0 0, .Mirror⟩
/-- Second scene object of the tie scene: the SAME plane, luminance 7. -/
noncomputable def exObjB : Object :=
  ⟨.plane exPlane, Color.BLACK, Vector3.new 7 7 7, .Mirror⟩

theorem exHits_eval :
    hitsList [exObjA, exObjB] exRayZ = [(exObjA, 5), (exObjB, 5)] := by
  unfold hitsList
  rw [List.filterMap_cons, List.filterMap_cons, List.filterMap_nil]
  rw [show exObjA.shape = Shape.plane exPlane from rfl,
    show exObjB.shape = Shape.plane exPlane from rfl]
  simp only [Shape.intersect]
  rw [exPlane_eval]
  rfl

theorem exBestHit_eval :
    bestHit [exObjA, exObjB] exRayZ = some (exObjB, 5) := by
  rw [bestHit, exHits_eval]
  simp only [reduceOpt, List.foldl]
  norm_num [min2]

/-- Counterexample to C3 as stated: two objects tie at `t = 5`; the
selection returns the SECOND object in scan order, not the first. -/
theorem bestHit_tie_counterexample :
    bestHit [exObjA, exObjB] exRayZ = some (exObjB, 5) ∧
    bestHit [exObjA, exObjB] exRayZ ≠ some (exObjA, 5) := by
  refine ⟨exBestHit_eval, ?_⟩
  rw [exBestHit_eval]
  intro h
  have hBA : exObjB = exObjA := congrArg Prod.fst (Option.some.inj h)
  have hlum := congrArg (fun o => o.lum.x) hBA
  norm_num [exObjA, exObjB] at hlum

/-- Witness for C3 (amended) on the concrete tie scene. -/
theorem bestHit_min_tie_last_witness :
    0 < ((exObjB, (5 : ℝ))).2 ∧
    ∃ l₁ l₂, hitsList [exObjA, exObjB] exRayZ = l₁ ++ (exObjB, (5 : ℝ)) :: l₂ ∧
      (∀ q ∈ l₁, ((exObjB, (5 : ℝ))).2 ≤ q.2) ∧
      (∀ q ∈ l₂, ((exObjB, (5 : ℝ))).2 < q.2) :=
  bestHit_min_tie_last [exObjA, exObjB] exRayZ (exObjB, 5) exBestHit_eval

/-! ## Claim C9 : wrong token count for a valid shape keyword -/

/-- Recognizer for the recoverable "invalid shape" error value. -/
def PRes.isInvalidShapeErr {α : Type} : PRes α → Bool
  | .err (.InvalidShape _) => true
  | _ => false

/-- Claim C9 (amended): a line whose declared shape keyword is valid but
whose token count is wrong for that shape makes the parser `panic!`
(process abort), NOT return the recoverable `InvalidShape` error; the
`InvalidShape` error is reserved for a missing or unknown keyword. -/
theorem parse_shape_wrong_count_panics (parseNum : String → Option ℝ)
    (parts rest : List String) :
    (parts.filter (fun p => p ≠ "") = "sphere" :: rest → rest.length ≠ 4 →
      parse_shape parseNum parts = .panicked "Invalid configuration for sphere") ∧
    (parts.filter (fun p => p ≠ "") = "plane" :: rest → rest.length ≠ 6 →
      parse_shape parseNum parts = .panicked "Invalid configuration for sphere") := by
  constructor
  · intro hf hlen
    unfold parse_shape
    rw [hf]
    dsimp only
    rw [if_pos rfl]
    unfold Sphere.from_string
    rw [if_pos hlen]
  · intro hf hlen
    unfold parse_shape
    rw [hf]
    dsimp only
    rw [if_neg (by decide : ¬("plane" = "sphere")), if_pos rfl]
    unfold Plane.from_string
    rw [if_pos hlen]

/-- Witness for C9 (amended): `sphere` with one numeric token and `plane`
with one numeric token both panic. -/
theorem parse_shape_wrong_count_panics_witness :
    parse_shape (fun _ => none) ["sphere", "1"] =
      .panicked "Invalid configuration for sphere" ∧
    parse_shape (fun _ => none) ["plane", "1"] =
      .panicked "Invalid configuration for sphere" :=
  ⟨(parse_shape_wrong_count_panics (fun _ => none) ["sphere", "1"] ["1"]).1
    (by decide) (by decide),
   (parse_shape_wrong_count_panics (fun _ => none) ["plane", "1"] ["1"]).2
    (by decide) (by decide)⟩

/-- Counterexample to C9 as stated: `sphere` followed by three numeric
tokens (wrong count) produces a panic, and the result is not the
`InvalidShape` error value the claim promises. -/
theorem parse_shape_counterexample :
    parse_shape (fun _ => none) ["sphere", "1", "2", "3"] =
      .panicked "Invalid configuration for sphere" ∧
    (parse_shape (fun _ => none) ["sphere", "1", "2", "3"]).isInvalidShapeErr = false := by
  constructor
  · unfold parse_shape
    rw [show (["sphere", "1", "2", "3"].filter (fun p => p ≠ "")) =
      "sphere" :: ["1", "2", "3"] by decide]
    dsimp only
    rw [if_pos rfl]
    unfold Sphere.from_string
    rw [if_pos (by decide : (["1", "2", "3"] : List String).length ≠ 4)]
  · unfold parse_shape
    rw [show (["sphere", "1", "2", "3"].filter (fun p => p ≠ "")) =
      "sphere" :: ["1", "2", "3"] by decide]
    dsimp only
    rw [if_pos rfl]
    unfold Sphere.from_string
    rw [if_pos (by decide : (["1", "2", "3"] : List String).length ≠ 4)]
    rfl

/-! ## Claim C7 : the recursion structure of get_color -/

/-- The body makes at most one recursive call: it factors through a single
application `recurse r2 k2`, whatever `recurse` is. -/
def OneCall (F : (Ray → ℕ → Option (Color × ℕ)) → Option (Color × ℕ)) : Prop :=
  ∃ (r2 : Ray) (k2 : ℕ) (post : Option (Color × ℕ) → Option (Color × ℕ)),
    ∀ recurse, F recurse = post (recurse r2 k2)

theorem oneCall_const (r0 : Ray) (c : Option (Color × ℕ)) :
    OneCall fun _ => c :=
  ⟨r0, 0, fun _ => c, fun _ => rfl⟩

theorem oneCall_call (r2 : Ray) (k2 : ℕ)
    (post : Option (Color × ℕ) → Option (Color × ℕ)) :
    OneCall fun recurse => post (recurse r2 k2) :=
  ⟨r2, k2, post, fun _ => rfl⟩

theorem oneCall_ite (c : Prop) [Decidable c]
    (F G : (Ray → ℕ → Option (Color × ℕ)) → Option (Color × ℕ))
    (hF : OneCall F) (hG : OneCall G) :
    OneCall fun recurse => if c then F recurse else G recurse := by
  by_cases hc : c
  · simp only [if_pos hc]; exact hF
  · simp only [if_neg hc]; exact hG

theorem oneCall_bind {β : Type} (r0 : Ray) (o : Option β)
    (F : β → (Ray → ℕ → Option (Color × ℕ)) → Option (Color × ℕ))
    (h : ∀ v, OneCall (F v)) :
    OneCall fun recurse => o.bind fun v => F v recurse := by
  cases o with
  | none => exact oneCall_const r0 none
  | some v => exact h v

theorem oneCall_map_post (g : Color × ℕ → Color × ℕ)
    (F : (Ray → ℕ → Option (Color × ℕ)) → Option (Color × ℕ))
    (h : OneCall F) :
    OneCall fun recurse => (F recurse).map g := by
  obtain ⟨r2, k2, post, hpost⟩ := h
  exact ⟨r2, k2, fun o => (post o).map g, fun recurse => by
    show (F recurse).map g = (post (recurse r2 k2)).map g
    rw [hpost recurse]⟩

/-- Claim C7: `get_color` at depth 0 is terminal (black, rng cursor
untouched); at depth `d + 1` it runs the body with its recursion bound to
depth exactly `d`; and the body factors through at most ONE application of
the recursion, so an initial depth `max_depth` produces at most `max_depth`
nested calls and the integrator terminates. -/
theorem get_color_depth_recursion (objects : List Object) (rng : ℕ → ℝ)
    (ray : Ray) (k : ℕ) :
    get_color objects rng 0 ray k = some (Color.BLACK, k) ∧
    (∀ d, get_color objects rng (d + 1) ray k =
      get_colorBody objects rng (fun r k2 => get_color objects rng d r k2) ray k) ∧
    ∃ (r2 : Ray) (k2 : ℕ) (post : Option (Color × ℕ) → Option (Color × ℕ)),
      ∀ recurse, get_colorBody objects rng recurse ray k = post (recurse r2 k2) := by
  refine ⟨rfl, fun d => rfl, ?_⟩
  show OneCall fun recurse => get_colorBody objects rng recurse ray k
  unfold get_colorBody
  cases hbh : bestHit objects ray with
  | none => exact oneCall_const ray _
  | some p =>
    obtain ⟨obj, t⟩ := p
    dsimp only
    cases hm : obj.material with
    | Mirror =>
      dsimp only
      apply oneCall_map_post
      apply oneCall_call
    | Translucent clearness =>
      dsimp only
      apply oneCall_map_post
      apply oneCall_ite
      · apply oneCall_ite
        · apply oneCall_ite
          · apply oneCall_bind ray
            intro ndv
            apply oneCall_bind ray
            intro nr
            apply oneCall_call
          · apply oneCall_bind ray
            intro ndv
            apply oneCall_bind ray
            intro nr
            apply oneCall_call
        · apply oneCall_bind ray
          intro ndv
          apply oneCall_bind ray
          intro nr
          apply oneCall_call
      · apply oneCall_bind ray
        intro nr
        apply oneCall_call

/-! ## Claim C4 : what the progressive loop resets on a scene change -/

theorem lastReset_le (chg : ℕ → Bool) : ∀ it, lastReset chg it ≤ it := by
  intro it
  induction it with
  | zero => exact le_refl 0
  | succ n ih =>
    unfold lastReset
    split
    next => exact le_refl _
    next => exact le_trans ih (Nat.le_succ n)

theorem rtAccEnd_sum_since_reset (chg : ℕ → Bool) (pass : ℕ → Image)
    (x y : ℕ) : ∀ it,
    (rtAccEnd chg pass it x y).x =
      Finset.sum (Finset.Ioc (lastReset chg it) it) (fun j => (pass j x y).x) ∧
    (rtAccEnd chg pass it x y).y =
      Finset.sum (Finset.Ioc (lastReset chg it) it) (fun j => (pass j x y).y) ∧
    (rtAccEnd chg pass it x y).z =
      Finset.sum (Finset.Ioc (lastReset chg it) it) (fun j => (pass j x y).z) := by
  intro it
  induction it with
  | zero =>
    simp [rtAccEnd, lastReset, zeroImage]
  | succ n ih =>
    by_cases hc : chg (n + 1)
    · simp [rtAccEnd, lastReset, hc, zeroImage]
    · obtain ⟨ihx, ihy, ihz⟩ := ih
      have hsum : ∀ f : ℕ → ℝ,
          Finset.sum (Finset.Ioc (lastReset chg n) (n + 1)) f =
          Finset.sum (Finset.Ioc (lastReset chg n) n) f + f (n + 1) :=
        fun f => Finset.sum_Ioc_succ_top (lastReset_le chg n) f
      refine ⟨?_, ?_, ?_⟩ <;>
        simp [rtAccEnd, lastReset, hc, hsum, ihx, ihy, ihz]

/-- Claim C4 (amended): on a scene change only the ACCUMULATOR is reset;
the loop counter `it` keeps counting from program start.  The displayed
image at iteration `it ≥ 1` is therefore the sum of the passes made since
the last reset divided by the TOTAL iteration count `it`, not by the
number of passes since the reset. -/
theorem rt_displayed_global_counter (chg : ℕ → Bool) (pass : ℕ → Image)
    (it x y : ℕ) (h : 1 ≤ it) :
    (rtDisplayed chg pass it x y).x =
      Finset.sum (Finset.Ioc (lastReset chg (it - 1)) it)
        (fun j => (pass j x y).x) / (it : ℝ) ∧
    (rtDisplayed chg pass it x y).y =
      Finset.sum (Finset.Ioc (lastReset chg (it - 1)) it)
        (fun j => (pass j x y).y) / (it : ℝ) ∧
    (rtDisplayed chg pass it x y).z =
      Finset.sum (Finset.Ioc (lastReset chg (it - 1)) it)
        (fun j => (pass j x y).z) / (it : ℝ) := by
  obtain ⟨n, rfl⟩ := Nat.exists_eq_add_of_le h
  have hn1 : 1 + n - 1 = n := by omega
  obtain ⟨ihx, ihy, ihz⟩ := rtAccEnd_sum_since_reset chg pass x y n
  have hsum : ∀ f : ℕ → ℝ,
      Finset.sum (Finset.Ioc (lastReset chg n) (n + 1)) f =
      Finset.sum (Finset.Ioc (lastReset chg n) n) f + f (n + 1) :=
    fun f => Finset.sum_Ioc_succ_top (lastReset_le chg n) f
  have h1n : 1 + n = n + 1 := by omega
  refine ⟨?_, ?_, ?_⟩ <;>
    · rw [rtDisplayed, hn1, h1n]
      simp only [Vector3.scale_x, Vector3.scale_y, Vector3.scale_z,
        Vector3.add_x, Vector3.add_y, Vector3.add_z, hsum, ihx, ihy, ihz]
      push_cast
      ring

/-- The scene-change pattern of the concrete run: one change, at the end
of iteration 1. -/
def exChg : ℕ → Bool := fun n => n == 1
/-- A constant pass image with channel value 2. -/
noncomputable def exPass : ℕ → Image := fun _ _ _ => Vector3.new 2 2 2

/-- Witness for C4 (amended) on the concrete run at iteration 2. -/
theorem rt_displayed_global_counter_witness :
    (rtDisplayed exChg exPass 2 0 0).x =
      Finset.sum (Finset.Ioc (lastReset exChg (2 - 1)) 2)
        (fun j => (exPass j 0 0).x) / ((2 : ℕ) : ℝ) ∧
    (rtDisplayed exChg exPass 2 0 0).y =
      Finset.sum (Finset.Ioc (lastReset exChg (2 - 1)) 2)
        (fun j => (exPass j 0 0).y) / ((2 : ℕ) : ℝ) ∧
    (rtDisplayed exChg exPass 2 0 0).z =
      Finset.sum (Finset.Ioc (lastReset exChg (2 - 1)) 2)
        (fun j => (exPass j 0 0).z) / ((2 : ℕ) : ℝ) :=
  rt_displayed_global_counter exChg exPass 2 0 0 (by norm_num)

/-- Counterexample to C4 as stated: with a scene change at the end of
iteration 1 and constant pass value 2, iteration 2 displays
`(0 + 2) / 2 = 1`, while the claim's "accumulator divided by passes since
the reset" is `2 / 1 = 2`. -/
theorem rt_reset_counterexample :
    (rtDisplayed exChg exPass 2 0 0).x = 1 ∧
    specDisplayedSinceReset exChg exPass 2 0 0 = 2 ∧
    (rtDisplayed exChg exPass 2 0 0).x ≠ specDisplayedSinceReset exChg exPass 2 0 0 := by
  have hreset : lastReset exChg 1 = 1 := by
    unfold lastReset
    simp [exChg]
  have hioc : Finset.Ioc 1 2 = {2} := by decide
  have hd : (rtDisplayed exChg exPass 2 0 0).x = 1 := by
    rw [rtDisplayed]
    show ((rtAccEnd exChg exPass 1 0 0 + exPass 2 0 0).scale (1 / ((2 : ℕ) : ℝ))).x = 1
    rw [show rtAccEnd exChg exPass 1 = zeroImage by
      unfold rtAccEnd
      simp [exChg]]
    simp [zeroImage, exPass]
  have hs : specDisplayedSinceReset exChg exPass 2 0 0 = 2 := by
    unfold specDisplayedSinceReset
    rw [show (2 : ℕ) - 1 = 1 by norm_num, hreset, hioc]
    simp [exPass]
    norm_num
  exact ⟨hd, hs, by rw [hd, hs]; norm_num⟩

/-! ## Claim C1 : sum versus average in the sampling driver -/

theorem sample_loop_eq_samples (objects : List Object) (rng : ℕ → ℝ)
    (md : ℕ) (mv : ℝ) (ray : Ray) : ∀ (n k : ℕ) (r g b : ℝ),
    sample_loop objects rng md mv ray n k r g b =
      (pixel_samples objects rng md mv ray n k).map fun csk =>
        (r + (csk.1.map Vector3.x).sum, g + (csk.1.map Vector3.y).sum,
          b + (csk.1.map Vector3.z).sum, csk.2) := by
  intro n
  induction n with
  | zero =>
    intro k r g b
    simp [sample_loop, pixel_samples]
  | succ m ih =>
    intro k r g b
    unfold sample_loop pixel_samples
    dsimp only
    cases hgc : get_color objects rng md
        (ray.turn ((2 * rng k - 1) * mv) ((2 * rng (k + 1) - 1) * mv))
        (k + 2) with
    | none => simp
    | some ck =>
      simp only [Option.some_bind]
      rw [ih ck.2 (r + ck.1.x) (g + ck.1.y) (b + ck.1.z)]
      cases hps : pixel_samples objects rng md mv ray m ck.2 with
      | none => simp
      | some csk =>
        simp only [Option.map_some', List.map_cons, List.sum_cons, Option.some.injEq,
          Prod.mk.injEq]
        refine ⟨by ring, by ring, by ring, trivial⟩

/-- Claim C1 (amended): the per-pixel color `make_image` produces (and
`build_once` hands to byte conversion) is the RAW channel-wise sum of the
`num_tries` integrator samples; no division by `num_tries` occurs. -/
theorem make_image_raw_sum (cfg : Config) (rngAt : ℕ → ℕ → ℕ → ℝ) (x y : ℕ) :
    make_image cfg rngAt y x =
      (pixel_samples cfg.objects (rngAt x y) cfg.max_depth cfg.max_variation
        (pixelRay cfg x y) cfg.num_tries 0).map fun csk =>
        Vector3.new ((csk.1.map Vector3.x).sum) ((csk.1.map Vector3.y).sum)
          ((csk.1.map Vector3.z).sum) := by
  show make_pixel cfg x y (rngAt x y) = _
  unfold make_pixel
  rw [sample_loop_eq_samples]
  rw [Option.map_map]
  cases pixel_samples cfg.objects (rngAt x y) cfg.max_depth cfg.max_variation
      (pixelRay cfg x y) cfg.num_tries 0 with
  | none => rfl
  | some csk => simp

/-- Modelled from the spec: "Final pixel value = accumulated sum divided by
num_tries" — the channel-wise average of the samples. -/
noncomputable def pixelAverageSpec (cfg : Config) (x y : ℕ) (rng : ℕ → ℝ) :
    Option Vector3 :=
  (pixel_samples cfg.objects rng cfg.max_depth cfg.max_variation
    (pixelRay cfg x y) cfg.num_tries 0).map fun csk =>
    (Vector3.new ((csk.1.map Vector3.x).sum) ((csk.1.map Vector3.y).sum)
      ((csk.1.map Vector3.z).sum)).scale (1 / (cfg.num_tries : ℝ))

/-- The all-zero rng stream (every random draw is 0). -/
noncomputable def rng0 : ℕ → ℝ := fun _ => 0

/-- A black mirror plane with luminance `(1,1,1)`: the integrator returns
exactly the luminance for every ray that hits it. -/
noncomputable def exMirrorObj : Object :=
  ⟨.plane exPlane, Color.BLACK, Vector3.new 1 1 1, .Mirror⟩

/-- 1×1 image, fov 0, depth 1, TWO samples per pixel, no jitter, camera at
the origin looking along `+z` (direction built by `new_sph` so the
spherical cache is exact). -/
noncomputable def exCfg : Config :=
  ⟨[exMirrorObj], ⟨Vector3.new 0 0 0, Vector3.new_sph 1 0 0⟩, 1, 1, 0, 1, 2, 0⟩

theorem exPixelRay_eval :
    pixelRay exCfg 0 0 = ⟨Vector3.new 0 0 0, Vector3.new_sph 1 0 0⟩ := by
  unfold pixelRay exCfg
  dsimp only
  rw [Ray.turn, Vector3.turn]
  norm_num

theorem exRay_turn_eval (a b : ℝ) :
    (Ray.mk (Vector3.new 0 0 0) (Vector3.new_sph 1 0 0)).turn (a * 0) (b * 0) =
      ⟨Vector3.new 0 0 0, Vector3.new_sph 1 0 0⟩ := by
  rw [Ray.turn, Vector3.turn]
  norm_num

theorem exGetColor_eval (k : ℕ) :
    get_color [exMirrorObj] rng0 1 ⟨Vector3.new 0 0 0, Vector3.new_sph 1 0 0⟩ k =
      some (Vector3.new 1 1 1, k) := by
  have hplane : Plane.intersect exPlane ⟨Vector3.new 0 0 0, Vector3.new_sph 1 0 0⟩ =
      some 5 := by
    norm_num [Plane.intersect, exPlane, Vector3.dot, Vector3.sub_def, EPS]
  have hbest : bestHit [exMirrorObj] ⟨Vector3.new 0 0 0, Vector3.new_sph 1 0 0⟩ =
      some (exMirrorObj, 5) := by
    unfold bestHit hitsList
    rw [List.filterMap_cons, List.filterMap_nil]
    rw [show exMirrorObj.shape = Shape.plane exPlane from rfl]
    simp only [Shape.intersect]
    rw [hplane]
    rfl
  have hstep : get_color [exMirrorObj] rng0 1
      ⟨Vector3.new 0 0 0, Vector3.new_sph 1 0 0⟩ k =
      get_colorBody [exMirrorObj] rng0
        (fun r k2 => get_color [exMirrorObj] rng0 0 r k2)
        ⟨Vector3.new 0 0 0, Vector3.new_sph 1 0 0⟩ k := rfl
  rw [hstep]
  unfold get_colorBody
  rw [hbest]
  dsimp only
  simp only [get_color]
  norm_num [exMirrorObj, Color.BLACK, Vector3.mul_def, Vector3.scale, Vector3.add_def]

theorem exMakePixel_eval : make_pixel exCfg 0 0 rng0 = some (Vector3.new 2 2 2) := by
  have hs2 : sample_loop [exMirrorObj] rng0 1 0
      ⟨Vector3.new 0 0 0, Vector3.new_sph 1 0 0⟩ 2 0 0 0 0 =
      sample_loop [exMirrorObj] rng0 1 0
        ⟨Vector3.new 0 0 0, Vector3.new_sph 1 0 0⟩ 1 2 1 1 1 := by
    show ((get_color [exMirrorObj] rng0 1
        ((Ray.mk (Vector3.new 0 0 0) (Vector3.new_sph 1 0 0)).turn
          ((2 * rng0 0 - 1) * 0) ((2 * rng0 (0 + 1) - 1) * 0)) 2).bind fun ck =>
      sample_loop [exMirrorObj] rng0 1 0
        ⟨Vector3.new 0 0 0, Vector3.new_sph 1 0 0⟩ 1 ck.2
        (0 + ck.1.x) (0 + ck.1.y) (0 + ck.1.z)) = _
    rw [exRay_turn_eval, exGetColor_eval 2]
    simp only [Option.some_bind, Vector3.new_x, Vector3.new_y, Vector3.new_z, zero_add]
  have hs1 : sample_loop [exMirrorObj] rng0 1 0
      ⟨Vector3.new 0 0 0, Vector3.new_sph 1 0 0⟩ 1 2 1 1 1 =
      sample_loop [exMirrorObj] rng0 1 0
        ⟨Vector3.new 0 0 0, Vector3.new_sph 1 0 0⟩ 0 4 2 2 2 := by
    show ((get_color [exMirrorObj] rng0 1
        ((Ray.mk (Vector3.new 0 0 0) (Vector3.new_sph 1 0 0)).turn
          ((2 * rng0 2 - 1) * 0) ((2 * rng0 (2 + 1) - 1) * 0)) 4).bind fun ck =>
      sample_loop [exMirrorObj] rng0 1 0
        ⟨Vector3.new 0 0 0, Vector3.new_sph 1 0 0⟩ 0 ck.2
        (1 + ck.1.x) (1 + ck.1.y) (1 + ck.1.z)) = _
    rw [exRay_turn_eval, exGetColor_eval 4]
    simp only [Option.some_bind, Vector3.new_x, Vector3.new_y, Vector3.new_z]
    norm_num
  show (sample_loop [exMirrorObj] rng0 1 0 (pixelRay exCfg 0 0) 2 0 0 0 0).map
    (fun rgbk => Vector3.new rgbk.1 rgbk.2.1 rgbk.2.2.1) = some (Vector3.new 2 2 2)
  rw [exPixelRay_eval, hs2, hs1]
  rfl

theorem exPixelSamples_eval :
    pixel_samples [exMirrorObj] rng0 1 0
      ⟨Vector3.new 0 0 0, Vector3.new_sph 1 0 0⟩ 2 0 =
      some ([Vector3.new 1 1 1, Vector3.new 1 1 1], 4) := by
  have hp2 : pixel_samples [exMirrorObj] rng0 1 0
      ⟨Vector3.new 0 0 0, Vector3.new_sph 1 0 0⟩ 2 0 =
      (pixel_samples [exMirrorObj] rng0 1 0
        ⟨Vector3.new 0 0 0, Vector3.new_sph 1 0 0⟩ 1 2).map
        fun csk => (Vector3.new 1 1 1 :: csk.1, csk.2) := by
    show ((get_color [exMirrorObj] rng0 1
        ((Ray.mk (Vector3.new 0 0 0) (Vector3.new_sph 1 0 0)).turn
          ((2 * rng0 0 - 1) * 0) ((2 * rng0 (0 + 1) - 1) * 0)) 2).bind fun ck =>
      (pixel_samples [exMirrorObj] rng0 1 0
        ⟨Vector3.new 0 0 0, Vector3.new_sph 1 0 0⟩ 1 ck.2).map
        fun csk => (ck.1 :: csk.1, csk.2)) = _
    rw [exRay_turn_eval, exGetColor_eval 2]
    rfl
  have hp1 : pixel_samples [exMirrorObj] rng0 1 0
      ⟨Vector3.new 0 0 0, Vector3.new_sph 1 0 0⟩ 1 2 =
      (pixel_samples [exMirrorObj] rng0 1 0
        ⟨Vector3.new 0 0 0, Vector3.new_sph 1 0 0⟩ 0 4).map
        fun csk => (Vector3.new 1 1 1 :: csk.1, csk.2) := by
    show ((get_color [exMirrorObj] rng0 1
        ((Ray.mk (Vector3.new 0 0 0) (Vector3.new_sph 1 0 0)).turn
          ((2 * rng0 2 - 1) * 0) ((2 * rng0 (2 + 1) - 1) * 0)) 4).bind fun ck =>
      (pixel_samples [exMirrorObj] rng0 1 0
        ⟨Vector3.new 0 0 0, Vector3.new_sph 1 0 0⟩ 0 ck.2).map
        fun csk => (ck.1 :: csk.1, csk.2)) = _
    rw [exRay_turn_eval, exGetColor_eval 4]
    rfl
  rw [hp2, hp1]
  rfl

theorem exPixelAverage_eval :
    pixelAverageSpec exCfg 0 0 rng0 = some (Vector3.new 1 1 1) := by
  unfold pixelAverageSpec
  rw [show exCfg.objects = [exMirrorObj] from rfl,
    show exCfg.max_depth = 1 from rfl,
    show exCfg.max_variation = (0 : ℝ) from rfl,
    show exCfg.num_tries = 2 from rfl,
    exPixelRay_eval, exPixelSamples_eval]
  simp only [Option.map_some', List.map_cons, List.map_nil, List.sum_cons,
    List.sum_nil, Option.some.injEq]
  norm_num [Vector3.scale]

/-- Counterexample to C1 as stated: on the concrete two-sample scene the
pixel value `make_image` produces is `(2,2,2)` — the raw sum — while the
claimed sum-divided-by-`num_tries` average is `(1,1,1)`. -/
theorem make_pixel_not_average :
    make_pixel exCfg 0 0 rng0 = some (Vector3.new 2 2 2) ∧
    pixelAverageSpec exCfg 0 0 rng0 = some (Vector3.new 1 1 1) ∧
    make_pixel exCfg 0 0 rng0 ≠ pixelAverageSpec exCfg 0 0 rng0 := by
  refine ⟨exMakePixel_eval, exPixelAverage_eval, ?_⟩
  rw [exMakePixel_eval, exPixelAverage_eval]
  intro h
  have h2 := congrArg Vector3.x (Option.some.inj h)
  norm_num at h2

end RayTracer
